import Mathlib

/-!
Verification of the animation core of the Cityescape OpenGL program
(src/main.cpp). The mutable global animation variables are embedded as a
state record over ℚ (the C program uses IEEE `float`; all constants in
play — 0.016, 1.2, 2.8, 0.2, bounds — are modelled as exact rationals,
and the spec's claims carry a 1e-4 tolerance that the exact model meets).
The `update` timer callback and `keyboard` handler become pure state
transformers; the traffic-signal phase computation and the DDA line
rasterizers become pure functions.
-/

namespace Cityscape

/-- Window dimensions, from `V_WIDTH` / `V_HEIGHT` in main.cpp. -/
def V_WIDTH : ℚ := 800

def V_HEIGHT : ℚ := 600

/-- The global animation variables of main.cpp:
`boatPos`, `boatSpeed`, `waterTime`, `trainPos`, `trainSpeed`, `paused`,
`trafficTimer`. -/
structure AnimState where
  boatPos : ℚ
  boatSpeed : ℚ
  waterTime : ℚ
  trainPos : ℚ
  trainSpeed : ℚ
  paused : Bool
  trafficTimer : ℚ
  deriving Repr, DecidableEq

/-- The initial values of the globals at program start:
`boatPos = -120`, `boatSpeed = 1.2`, `waterTime = 0`, `trainPos = -520`,
`trainSpeed = 2.8`, `paused = false`, `trafficTimer = 0`. -/
def initState : AnimState :=
  { boatPos := -120
    boatSpeed := 1.2
    waterTime := 0
    trainPos := -520
    trainSpeed := 2.8
    paused := false
    trafficTimer := 0 }

/-- C `fmodf` on rationals: `x - y * trunc (x / y)`, where truncation is
toward zero (floor for a nonnegative quotient, ceiling for a negative
one). -/
def fmodQ (x y : ℚ) : ℚ :=
  x - y * (if 0 ≤ x / y then ((⌊x / y⌋ : ℤ) : ℚ) else ((⌈x / y⌉ : ℤ) : ℚ))

/-- The `update` timer callback of main.cpp (state part only; the
`glutPostRedisplay` / `glutTimerFunc` calls are rendering/scheduling side
effects with no effect on the animation state):
if not paused, advance `trainPos` by `trainSpeed` wrapping past
`V_WIDTH + 360` to `-760`, advance `boatPos` by `boatSpeed` wrapping past
`V_WIDTH + 120` to `-150`, and advance `trafficTimer` by `0.016` reducing
it by `fmodf` once it reaches `100000`; regardless of pause, advance
`waterTime` by `0.016`. -/
def update (s : AnimState) : AnimState :=
  let s1 :=
    if s.paused then s
    else
      let tp0 := s.trainPos + s.trainSpeed
      let tp := if tp0 > V_WIDTH + 360 then (-760 : ℚ) else tp0
      let bp0 := s.boatPos + s.boatSpeed
      let bp := if bp0 > V_WIDTH + 120 then (-150 : ℚ) else bp0
      let tt0 := s.trafficTimer + 0.016
      let tt := if tt0 ≥ 100000 then fmodQ tt0 100000 else tt0
      { s with trainPos := tp, boatPos := bp, trafficTimer := tt }
  { s1 with waterTime := s1.waterTime + 0.016 }

/-- Iterate `update` for the given number of ticks. -/
def updateN : ℕ → AnimState → AnimState
  | 0, s => s
  | n + 1, s => update (updateN n s)

/-- The `keyboard` handler of main.cpp. ESC (27) calls `exit(0)` and so
has no successor state; the three state-mutating keys are Space (pause
toggle), '+' (speed up) and '-' (speed down with floor clamp); all other
keys leave the state unchanged. -/
def keyboard (key : Char) (s : AnimState) : AnimState :=
  if key = ' ' then { s with paused := !s.paused }
  else if key = '+' then { s with trainSpeed := s.trainSpeed + 0.2 }
  else if key = '-' then { s with trainSpeed := max 0.2 (s.trainSpeed - 0.2) }
  else s

/-- Closed form of the first 100 ticks from the initial state: no wrap
bound is reached, so every animated quantity advances linearly. -/
lemma updateN_initState_closed_form (n : ℕ) (hn : n ≤ 100) :
    (updateN n initState).trainPos = -520 + 2.8 * n ∧
    (updateN n initState).boatPos = -120 + 1.2 * n ∧
    (updateN n initState).trafficTimer = 0.016 * n ∧
    (updateN n initState).waterTime = 0.016 * n ∧
    (updateN n initState).trainSpeed = 2.8 ∧
    (updateN n initState).boatSpeed = 1.2 ∧
    (updateN n initState).paused = false := by
  induction n with
  | zero => norm_num [updateN, initState]
  | succ n ih =>
    have hn' : n ≤ 100 := by omega
    obtain ⟨h1, h2, h3, h4, h5, h6, h7⟩ := ih hn'
    have hc : (n : ℚ) ≤ 99 := by
      have h99 : n ≤ 99 := by omega
      exact_mod_cast h99
    simp only [updateN, update, h1, h2, h3, h4, h5, h6, h7]
    norm_num [V_WIDTH]
    split_ifs with ha hb hd
    all_goals first
      | (exfalso; linarith)
      | (ring_nf; simp)

/-- C1: end-to-end tick semantics. Starting from the initial state, after
exactly 100 unpaused ticks of `update` with the default speeds,
`trainPos = -240`, `boatPos = 0`, and `trafficTimer` and `waterTime` are
within 1e-4 of 1.6 (in the exact-rational model they equal 1.6). -/
theorem hundred_ticks_from_init :
    (updateN 100 initState).trainPos = -240 ∧
    (updateN 100 initState).boatPos = 0 ∧
    |(updateN 100 initState).trafficTimer - 1.6| < 1 / 10000 ∧
    |(updateN 100 initState).waterTime - 1.6| < 1 / 10000 := by
  obtain ⟨h1, h2, h3, h4, _, _, _⟩ :=
    updateN_initState_closed_form 100 (le_refl 100)
  refine ⟨?_, ?_, ?_, ?_⟩
  · rw [h1]; norm_num
  · rw [h2]; norm_num
  · rw [h3]; norm_num
  · rw [h4]; norm_num

lemma update_trainSpeed (s : AnimState) :
    (update s).trainSpeed = s.trainSpeed := by
  simp only [update]
  split_ifs <;> rfl

lemma update_boatSpeed (s : AnimState) :
    (update s).boatSpeed = s.boatSpeed := by
  simp only [update]
  split_ifs <;> rfl

lemma update_paused (s : AnimState) :
    (update s).paused = s.paused := by
  simp only [update]
  split_ifs <;> rfl

lemma update_waterTime (s : AnimState) :
    (update s).waterTime = s.waterTime + 0.016 := by
  simp only [update]
  split_ifs <;> rfl

lemma updateN_trainSpeed (n : ℕ) (s : AnimState) :
    (updateN n s).trainSpeed = s.trainSpeed := by
  induction n with
  | zero => rfl
  | succ n ih => rw [updateN, update_trainSpeed, ih]

lemma updateN_paused (n : ℕ) (s : AnimState) :
    (updateN n s).paused = s.paused := by
  induction n with
  | zero => rfl
  | succ n ih => rw [updateN, update_paused, ih]

/-- An unpaused tick moves the train by `trainSpeed`, resetting to `-760`
past `V_WIDTH + 360` (the reset is to the constant `-760`, with no carry
of the overshoot). -/
lemma update_trainPos (s : AnimState) (hp : s.paused = false) :
    (update s).trainPos =
      if s.trainPos + s.trainSpeed > V_WIDTH + 360 then -760
      else s.trainPos + s.trainSpeed := by
  simp only [update, hp]
  split_ifs <;> simp_all

/-- Modelled on the spec sentence for the train trajectory: starting at
-520, each step adds the speed and wraps to exactly -760 once the value
passes `V_WIDTH + 360`. -/
def trainPosSpec (speed : ℚ) : ℕ → ℚ
  | 0 => -520
  | n + 1 =>
    if trainPosSpec speed n + speed > V_WIDTH + 360 then -760
    else trainPosSpec speed n + speed

/-- C2: for every tick count n with pause off throughout, the code's
train position refines the spec trajectory `-520 + n·speed` with
wraparound at `V_WIDTH + 360`; and whenever the incremented position
exceeds that bound, the reset is to exactly `-760`. -/
theorem trainPos_follows_spec (speed : ℚ) (n : ℕ) (s : AnimState)
    (hp : s.paused = false) :
    (updateN n { initState with trainSpeed := speed }).trainPos =
      trainPosSpec speed n ∧
    (V_WIDTH + 360 < s.trainPos + s.trainSpeed →
      (update s).trainPos = -760) := by
  constructor
  · induction n with
    | zero => rfl
    | succ n ih =>
      have hpn : (updateN n { initState with trainSpeed := speed }).paused
          = false := by
        rw [updateN_paused]; rfl
      have hsn : (updateN n { initState with trainSpeed := speed }).trainSpeed
          = speed := by
        rw [updateN_trainSpeed]
      rw [updateN, update_trainPos _ hpn, ih, hsn, trainPosSpec]
  · intro h
    rw [update_trainPos s hp, if_pos h]

/-- Witness for C2 at speed 2.8, n = 5, s = the initial state. -/
theorem trainPos_follows_spec_witness :
    (updateN 5 { initState with trainSpeed := 2.8 }).trainPos =
      trainPosSpec 2.8 5 ∧
    (V_WIDTH + 360 < initState.trainPos + initState.trainSpeed →
      (update initState).trainPos = -760) :=
  trainPos_follows_spec 2.8 5 initState rfl

/-- C3: pause asymmetry. With the pause flag set, a tick leaves
`trainPos`, `boatPos` and `trafficTimer` exactly unchanged, while
`waterTime` still advances by 0.016; and for every state, paused or not,
`waterTime` advances by 0.016 per tick. -/
theorem pause_asymmetry (s : AnimState) (hp : s.paused = true) :
    (update s).trainPos = s.trainPos ∧
    (update s).boatPos = s.boatPos ∧
    (update s).trafficTimer = s.trafficTimer ∧
    ∀ s2 : AnimState, (update s2).waterTime = s2.waterTime + 0.016 := by
  refine ⟨?_, ?_, ?_, fun s2 => update_waterTime s2⟩ <;>
    simp only [update, hp] <;> rfl

/-- Witness for C3 at the initial state with the pause flag set. -/
theorem pause_asymmetry_witness :
    (update { initState with paused := true }).trainPos =
      ({ initState with paused := true } : AnimState).trainPos ∧
    (update { initState with paused := true }).boatPos =
      ({ initState with paused := true } : AnimState).boatPos ∧
    (update { initState with paused := true }).trafficTimer =
      ({ initState with paused := true } : AnimState).trafficTimer ∧
    ∀ s2 : AnimState, (update s2).waterTime = s2.waterTime + 0.016 :=
  pause_asymmetry { initState with paused := true } rfl

lemma fmodQ_eq_of_decomp (x y r : ℚ) (k : ℤ) (hy : 0 < y) (hx : 0 ≤ x)
    (hr0 : 0 ≤ r) (hry : r < y) (hxk : x = y * k + r) :
    fmodQ x y = r := by
  have hyne : y ≠ 0 := ne_of_gt hy
  have hquot : x / y = (k : ℚ) + r / y := by
    rw [hxk]
    field_simp
    ring
  have hrq : ⌊r / y⌋ = 0 := by
    rw [Int.floor_eq_zero_iff]
    exact ⟨div_nonneg hr0 hy.le, (div_lt_one hy).mpr hry⟩
  have hfl : ⌊x / y⌋ = k := by
    rw [hquot, Int.floor_int_add, hrq, add_zero]
  have h0 : 0 ≤ x / y := by
    rw [hquot]
    have : (0 : ℚ) ≤ r / y := div_nonneg hr0 hy.le
    have hk : (0 : ℚ) ≤ (k : ℚ) + r / y := by
      by_contra hneg
      push_neg at hneg
      have hx0 : x / y < 0 := by rw [hquot]; exact hneg
      have : x / y ≥ 0 := div_nonneg hx hy.le
      linarith
    exact hk
  unfold fmodQ
  rw [if_pos h0, hfl, hxk]
  ring

lemma fmodQ_bounds (x y : ℚ) (hy : 0 < y) (hx : 0 ≤ x) :
    0 ≤ fmodQ x y ∧ fmodQ x y < y := by
  have h0 : 0 ≤ x / y := div_nonneg hx hy.le
  have h1 : ((⌊x / y⌋ : ℤ) : ℚ) ≤ x / y := Int.floor_le _
  have h2 : x / y < (⌊x / y⌋ : ℚ) + 1 := Int.lt_floor_add_one _
  have hyx : y * (x / y) = x := by field_simp
  unfold fmodQ
  rw [if_pos h0]
  constructor
  · nlinarith
  · nlinarith

lemma fmodQ_decomp (x y : ℚ) (hy : 0 < y) (hx : 0 ≤ x) :
    x = y * ⌊x / y⌋ + fmodQ x y := by
  have h0 : 0 ≤ x / y := div_nonneg hx hy.le
  unfold fmodQ
  rw [if_pos h0]
  ring

lemma fmodQ_add_three (x : ℚ) (hx : 0 ≤ x) :
    fmodQ (x + 3) 6 =
      if fmodQ x 6 < 3 then fmodQ x 6 + 3 else fmodQ x 6 - 3 := by
  have hb := fmodQ_bounds x 6 (by norm_num) hx
  have hd := fmodQ_decomp x 6 (by norm_num) hx
  by_cases h : fmodQ x 6 < 3
  · rw [if_pos h]
    exact fmodQ_eq_of_decomp _ 6 _ ⌊x / 6⌋ (by norm_num) (by linarith)
      (by linarith [hb.1]) (by linarith) (by linarith)
  · rw [if_neg h]
    push_neg at h
    refine fmodQ_eq_of_decomp _ 6 _ (⌊x / 6⌋ + 1) (by norm_num) (by linarith)
      (by linarith) (by linarith [hb.2]) ?_
    push_cast
    linarith

lemma fmodQ_add_period (x : ℚ) (hx : 0 ≤ x) :
    fmodQ (x + 6) 6 = fmodQ x 6 := by
  have hb := fmodQ_bounds x 6 (by norm_num) hx
  have hd := fmodQ_decomp x 6 (by norm_num) hx
  refine fmodQ_eq_of_decomp _ 6 _ (⌊x / 6⌋ + 1) (by norm_num) (by linarith)
    hb.1 hb.2 ?_
  push_cast
  linarith

/-- The lamp booleans of `drawTrafficSignal` (main.cpp lines 443-446):
`t = fmodf(trafficTimer + phaseOffsetSec, 6.0f)`, `redOn = (t < 2.5f)`. -/
def redOn (timer phase : ℚ) : Bool :=
  decide (fmodQ (timer + phase) 6 < 2.5)

/-- Source: `greenOn = (t >= 2.5f && t < 5.0f)`. -/
def greenOn (timer phase : ℚ) : Bool :=
  decide (2.5 ≤ fmodQ (timer + phase) 6 ∧ fmodQ (timer + phase) 6 < 5)

/-- Source: `yellowOn = (t >= 5.0f)`. -/
def yellowOn (timer phase : ℚ) : Bool :=
  decide (5 ≤ fmodQ (timer + phase) 6)

/-- The state of one traffic signal. -/
inductive SignalColor where
  | red
  | green
  | yellow
  deriving Repr, DecidableEq

/-- The state of the signal at a given timer value and phase offset: the
unique lamp lit by `drawTrafficSignal` (the three booleans are mutually
exclusive and, on the timer range the program produces, exhaustive). -/
def signalState (timer phase : ℚ) : SignalColor :=
  if redOn timer phase then SignalColor.red
  else if greenOn timer phase then SignalColor.green
  else SignalColor.yellow

/-- The phase offsets of the two signals drawn by `drawTrafficSignals`:
0 for the left signal at x = 40 and 3 for the right one at
x = V_WIDTH - 40. -/
def signalPhases : List ℚ := [0, 3]

lemma signalState_simple (timer phase : ℚ) :
    signalState timer phase =
      if fmodQ (timer + phase) 6 < 2.5 then SignalColor.red
      else if fmodQ (timer + phase) 6 < 5 then SignalColor.green
      else SignalColor.yellow := by
  unfold signalState redOn greenOn
  simp only [decide_eq_true_eq]
  by_cases h1 : fmodQ (timer + phase) 6 < 2.5
  · rw [if_pos h1, if_pos h1]
  · rw [if_neg h1, if_neg h1]
    by_cases h2 : fmodQ (timer + phase) 6 < 5
    · rw [if_pos ⟨le_of_not_lt h1, h2⟩, if_pos h2]
    · rw [if_neg (fun hc => h2 hc.2), if_neg h2]

/-- C4: the traffic-signal phase function. With t = (timer + phase) mod 6,
t lies in [0,6), the signal is RED exactly on [0,2.5), GREEN exactly on
[2.5,5), YELLOW exactly on [5,6); the spec's sample points at phase 0
evaluate as stated, and the state function is cyclic with period 6. -/
theorem signal_phase_function (timer phase : ℚ) (h : 0 ≤ timer + phase) :
    (0 ≤ fmodQ (timer + phase) 6 ∧ fmodQ (timer + phase) 6 < 6) ∧
    (redOn timer phase = true ↔ fmodQ (timer + phase) 6 < 2.5) ∧
    (greenOn timer phase = true ↔
      2.5 ≤ fmodQ (timer + phase) 6 ∧ fmodQ (timer + phase) 6 < 5) ∧
    (yellowOn timer phase = true ↔ 5 ≤ fmodQ (timer + phase) 6) ∧
    signalState 0 0 = SignalColor.red ∧
    signalState 2.6 0 = SignalColor.green ∧
    signalState 5.1 0 = SignalColor.yellow ∧
    signalState 6 0 = SignalColor.red ∧
    signalState (timer + 6) phase = signalState timer phase := by
  refine ⟨fmodQ_bounds _ 6 (by norm_num) h, ?_, ?_, ?_, ?_, ?_, ?_, ?_, ?_⟩
  · simp [redOn]
  · simp [greenOn]
  · simp [yellowOn]
  · norm_num [signalState_simple, fmodQ]
  · norm_num [signalState_simple, fmodQ]
  · norm_num [signalState_simple, fmodQ]
  · norm_num [signalState_simple, fmodQ]
  · rw [signalState_simple, signalState_simple,
      show timer + 6 + phase = timer + phase + 6 by ring,
      fmodQ_add_period _ h]

/-- Witness for C4 at timer = 1, phase = 0. -/
theorem signal_phase_function_witness :
    (0 ≤ fmodQ ((1 : ℚ) + 0) 6 ∧ fmodQ ((1 : ℚ) + 0) 6 < 6) ∧
    (redOn 1 0 = true ↔ fmodQ ((1 : ℚ) + 0) 6 < 2.5) ∧
    (greenOn 1 0 = true ↔
      2.5 ≤ fmodQ ((1 : ℚ) + 0) 6 ∧ fmodQ ((1 : ℚ) + 0) 6 < 5) ∧
    (yellowOn 1 0 = true ↔ 5 ≤ fmodQ ((1 : ℚ) + 0) 6) ∧
    signalState 0 0 = SignalColor.red ∧
    signalState 2.6 0 = SignalColor.green ∧
    signalState 5.1 0 = SignalColor.yellow ∧
    signalState 6 0 = SignalColor.red ∧
    signalState ((1 : ℚ) + 6) 0 = signalState 1 0 :=
  signal_phase_function 1 0 (by norm_num)

/-- C5: the two rendered signals, at phase offsets 0 and 3 (see
`signalPhases`), are never in the same state for any timer value the
program can hold (the timer is always nonnegative). -/
theorem two_signals_never_same_state (timer : ℚ) (h : 0 ≤ timer) :
    signalState timer 0 ≠ signalState timer 3 := by
  have hb := fmodQ_bounds timer 6 (by norm_num) h
  obtain ⟨hb0, hb6⟩ := hb
  have h3 : fmodQ (timer + 3) 6 =
      if fmodQ timer 6 < 3 then fmodQ timer 6 + 3 else fmodQ timer 6 - 3 :=
    fmodQ_add_three timer h
  rw [signalState_simple, signalState_simple, add_zero, h3]
  split_ifs <;> first | decide | (exfalso; linarith)

/-- Witness for C5 at timer = 0. -/
theorem two_signals_never_same_state_witness :
    signalState 0 0 ≠ signalState 0 3 :=
  two_signals_never_same_state 0 (by norm_num)

/-- n presses of the '-' key. -/
def minusN : ℕ → AnimState → AnimState
  | 0, s => s
  | n + 1, s => keyboard '-' (minusN n s)

/-- C6: the speed floor. After any positive number of '-' presses from
any state, `trainSpeed` is at least 0.2, and the clamp is idempotent at
the floor: pressing '-' at `trainSpeed = 0.2` leaves it at 0.2. -/
theorem trainSpeed_floor (s : AnimState) (n : ℕ) (hn : 0 < n) :
    0.2 ≤ (minusN n s).trainSpeed ∧
    (s.trainSpeed = 0.2 → (keyboard '-' s).trainSpeed = 0.2) := by
  constructor
  · cases n with
    | zero => exact absurd hn (by norm_num)
    | succ n =>
      show 0.2 ≤ (keyboard '-' (minusN n s)).trainSpeed
      simp only [keyboard]
      norm_num
      exact le_max_left _ _
  · intro hs
    simp only [keyboard]
    norm_num [hs]
    rw [if_neg (by decide), if_neg (by decide)]

/-- Witness for C6 at the initial state with one '-' press. -/
theorem trainSpeed_floor_witness :
    0.2 ≤ (minusN 1 initState).trainSpeed ∧
    (initState.trainSpeed = 0.2 →
      (keyboard '-' initState).trainSpeed = 0.2) :=
  trainSpeed_floor initState 1 (by norm_num)

/-- C7: boat wraparound. On an unpaused tick where the incremented boat
position exceeds `V_WIDTH + 120`, the boat position is reset to exactly
-150, and the boat speed (hence the direction of motion) is unchanged. -/
theorem boat_wrap (s : AnimState) (hp : s.paused = false)
    (hw : V_WIDTH + 120 < s.boatPos + s.boatSpeed) :
    (update s).boatPos = -150 ∧ (update s).boatSpeed = s.boatSpeed := by
  refine ⟨?_, update_boatSpeed s⟩
  simp only [update, hp]
  norm_num
  intro hc
  linarith

/-- Witness for C7: the initial state moved to boatPos = 1000. -/
theorem boat_wrap_witness :
    (update { initState with boatPos := 1000 }).boatPos = -150 ∧
    (update { initState with boatPos := 1000 }).boatSpeed =
      ({ initState with boatPos := 1000 } : AnimState).boatSpeed :=
  boat_wrap { initState with boatPos := 1000 } rfl
    (by norm_num [initState, V_WIDTH])

lemma updateN_waterTime (n : ℕ) (s : AnimState) :
    (updateN n s).waterTime = s.waterTime + 0.016 * n := by
  induction n with
  | zero => simp [updateN]
  | succ n ih =>
    rw [updateN, update_waterTime, ih]
    push_cast
    ring

/-- An interleaved event of the program loop: a timer tick or a key
press. -/
inductive Op where
  | tick
  | key (c : Char)

def applyOp (s : AnimState) : Op → AnimState
  | Op.tick => update s
  | Op.key c => keyboard c s

def applyOps (s : AnimState) : List Op → AnimState
  | [] => s
  | op :: ops => applyOps (applyOp s op) ops

/-- The bounds that the clamps of `update` and `keyboard` actually
maintain: both positions stay inside their wrap windows, the traffic
timer stays in [0, 100000), the train speed stays at or above its floor,
and the boat speed is the constant 1.2. (`waterTime` and an upper bound
on `trainSpeed` are deliberately absent: neither is clamped.) -/
def Bounded (s : AnimState) : Prop :=
  -760 ≤ s.trainPos ∧ s.trainPos ≤ V_WIDTH + 360 ∧
  -150 ≤ s.boatPos ∧ s.boatPos ≤ V_WIDTH + 120 ∧
  0 ≤ s.trafficTimer ∧ s.trafficTimer < 100000 ∧
  0.2 ≤ s.trainSpeed ∧ s.boatSpeed = 1.2

lemma bounded_update (s : AnimState) (h : Bounded s) :
    Bounded (update s) := by
  obtain ⟨h1, h2, h3, h4, h5, h6, h7, h8⟩ := h
  by_cases hp : s.paused
  · simp only [update, if_pos hp]
    exact ⟨h1, h2, h3, h4, h5, h6, h7, h8⟩
  · simp only [update, if_neg hp, Bounded]
    have htt : (0 : ℚ) ≤ s.trafficTimer + 0.016 := by linarith
    refine ⟨?_, ?_, ?_, ?_, ?_, ?_, h7, h8⟩
    · show -760 ≤ ite _ _ _
      split_ifs with hw
      · linarith
      · linarith
    · show ite _ _ _ ≤ V_WIDTH + 360
      split_ifs with hw
      · norm_num [V_WIDTH]
      · linarith
    · show -150 ≤ ite _ _ _
      split_ifs with hw
      · linarith
      · rw [h8]; linarith
    · show ite _ _ _ ≤ V_WIDTH + 120
      split_ifs with hw
      · norm_num [V_WIDTH]
      · linarith
    · show (0 : ℚ) ≤ ite _ _ _
      split_ifs with hw
      · exact (fmodQ_bounds _ 100000 (by norm_num) htt).1
      · linarith
    · show ite _ _ _ < 100000
      split_ifs with hw
      · exact (fmodQ_bounds _ 100000 (by norm_num) htt).2
      · linarith

lemma bounded_keyboard (c : Char) (s : AnimState) (h : Bounded s) :
    Bounded (keyboard c s) := by
  obtain ⟨h1, h2, h3, h4, h5, h6, h7, h8⟩ := h
  simp only [keyboard]
  split_ifs
  · exact ⟨h1, h2, h3, h4, h5, h6, h7, h8⟩
  · exact ⟨h1, h2, h3, h4, h5, h6, by show (0.2 : ℚ) ≤ _; linarith, h8⟩
  · exact ⟨h1, h2, h3, h4, h5, h6, le_max_left _ _, h8⟩
  · exact ⟨h1, h2, h3, h4, h5, h6, h7, h8⟩

/-- C8 as stated is false: `waterTime` has no clamp and grows without
bound under ticks alone (it takes the value 0.016·n after n ticks), so
not every field of the animation state is bounded over all operation
sequences. -/
theorem waterTime_not_bounded :
    ¬ ∃ B : ℚ, ∀ n : ℕ, (updateN n initState).waterTime ≤ B := by
  rintro ⟨B, hB⟩
  obtain ⟨n, hn⟩ := exists_nat_gt (B / 0.016)
  have hw := hB n
  rw [updateN_waterTime] at hw
  simp only [initState] at hw
  have h016 : (0 : ℚ) < 0.016 := by norm_num
  have hBn : B < 0.016 * n := by
    have hcalc : B = 0.016 * (B / 0.016) := by field_simp
    calc B = 0.016 * (B / 0.016) := hcalc
    _ < 0.016 * n := by exact (mul_lt_mul_left h016).mpr hn
  norm_num at hw
  linarith

/-- C8 amended: over every sequence of tick and key-event operations
from the initial state, the clamped fields stay bounded — `trainPos` in
[-760, V_WIDTH+360], `boatPos` in [-150, V_WIDTH+120], `trafficTimer` in
[0, 100000), `trainSpeed` at least 0.2 and `boatSpeed` constant —
while `waterTime` (and an upper bound for `trainSpeed`) have no clamp. -/
theorem clamped_fields_bounded (ops : List Op) :
    Bounded (applyOps initState ops) := by
  have hgen : ∀ s, Bounded s → Bounded (applyOps s ops) := by
    induction ops with
    | nil => exact fun s hs => hs
    | cons op ops ih =>
      intro s hs
      refine ih (applyOp s op) ?_
      cases op with
      | tick => exact bounded_update s hs
      | key c => exact bounded_keyboard c s hs
  refine hgen initState ?_
  unfold Bounded initState
  norm_num [V_WIDTH]

/-- The point-emission loop shared in shape by both DDA rasterizers:
`for(int i = 0; i <= steps; i++) { emit(x, y); x += xInc; y += yInc; }`,
with the iteration count passed explicitly. -/
def ddaLoop (xInc yInc : ℚ) : ℚ → ℚ → ℕ → List (ℚ × ℚ)
  | _, _, 0 => []
  | x, y, n + 1 => (x, y) :: ddaLoop xInc yInc (x + xInc) (y + yInc) n

/-- Identical loop embedded for `drawLineDDA_Lamp` so the two helpers
are modelled independently. -/
def ddaLoopLamp (xInc yInc : ℚ) : ℚ → ℚ → ℕ → List (ℚ × ℚ)
  | _, _, 0 => []
  | x, y, n + 1 => (x, y) :: ddaLoopLamp xInc yInc (x + xInc) (y + yInc) n

/-- Step count of `drawLineDDA` (main.cpp line 85):
`steps = fabs(dx) > fabs(dy) ? fabs(dx) : fabs(dy)`. -/
def ddaSteps (x1 y1 x2 y2 : ℚ) : ℚ :=
  if |x2 - x1| > |y2 - y1| then |x2 - x1| else |y2 - y1|

/-- Step count of `drawLineDDA_Lamp` (main.cpp line 106), textually the
same computation. -/
def ddaStepsLamp (x1 y1 x2 y2 : ℚ) : ℚ :=
  if |x2 - x1| > |y2 - y1| then |x2 - x1| else |y2 - y1|

/-- The point sequence emitted by `drawLineDDA` (main.cpp lines 81-99).
The `i <= steps` loop with `steps ≥ 0` runs ⌊steps⌋ + 1 times. When the
endpoints coincide, `steps = 0` and the C code computes `0.0f/0.0f`
(NaN) for the increments; the single point emitted, (x1, y1), is
produced before any increment is used, and the ℚ model's convention
`0 / 0 = 0` leaves that observable point sequence unchanged. -/
def drawLineDDA (x1 y1 x2 y2 : ℚ) : List (ℚ × ℚ) :=
  let dx := x2 - x1
  let dy := y2 - y1
  let steps := ddaSteps x1 y1 x2 y2
  ddaLoop (dx / steps) (dy / steps) x1 y1 (⌊steps⌋.toNat + 1)

/-- The point sequence emitted by `drawLineDDA_Lamp` (main.cpp lines
102-120), an exact textual copy of `drawLineDDA` in the source. -/
def drawLineDDA_Lamp (x1 y1 x2 y2 : ℚ) : List (ℚ × ℚ) :=
  let dx := x2 - x1
  let dy := y2 - y1
  let steps := ddaStepsLamp x1 y1 x2 y2
  ddaLoopLamp (dx / steps) (dy / steps) x1 y1 (⌊steps⌋.toNat + 1)

lemma ddaLoop_eq_ddaLoopLamp (xInc yInc : ℚ) (n : ℕ) :
    ∀ x y : ℚ, ddaLoop xInc yInc x y n = ddaLoopLamp xInc yInc x y n := by
  induction n with
  | zero => intro x y; rfl
  | succ n ih =>
    intro x y
    simp only [ddaLoop, ddaLoopLamp]
    rw [ih]

/-- C9: the two line rasterizers are extensionally identical — for every
input they compute the same step count and emit the same point
sequence. -/
theorem dda_helpers_identical (x1 y1 x2 y2 : ℚ) :
    ddaSteps x1 y1 x2 y2 = ddaStepsLamp x1 y1 x2 y2 ∧
    drawLineDDA x1 y1 x2 y2 = drawLineDDA_Lamp x1 y1 x2 y2 := by
  refine ⟨rfl, ?_⟩
  simp only [drawLineDDA, drawLineDDA_Lamp, ddaSteps, ddaStepsLamp]
  exact ddaLoop_eq_ddaLoopLamp _ _ _ _ _

/-- The three segments `drawDDALampPost` (main.cpp lines 125-145) passes
to `drawLineDDA_Lamp`: the pole from (x, groundY) to (x, armY) with
`armY = groundY + 170`, the horizontal arm from (x, armY) to
(x + 22, armY), and the lamp head from (x + 22, armY) down to
(x + 22, armY - 12). -/
def drawDDALampPost_segments (x groundY : ℚ) : List (ℚ × ℚ × ℚ × ℚ) :=
  let poleHeight : ℚ := 170
  let armY := groundY + poleHeight
  let headBottomY := armY - 12
  [(x, groundY, x, armY),
   (x, armY, x + 22, armY),
   (x + 22, armY, x + 22, headBottomY)]

/-- C10: the DDA divisor `steps` is zero exactly when the endpoints
coincide, and every call `drawDDALampPost` makes has distinct endpoints:
the three step counts are 170, 22 and 12 — all positive — so the
division-by-zero case is unreachable from `drawDDALampPost`. -/
theorem dda_division_by_zero_unreachable (x1 y1 x2 y2 x g : ℚ) :
    (ddaStepsLamp x1 y1 x2 y2 = 0 ↔ x1 = x2 ∧ y1 = y2) ∧
    (drawDDALampPost_segments x g).map
      (fun p => ddaStepsLamp p.1 p.2.1 p.2.2.1 p.2.2.2) = [170, 22, 12] ∧
    0 < ddaStepsLamp x g x (g + 170) ∧
    0 < ddaStepsLamp x (g + 170) (x + 22) (g + 170) ∧
    0 < ddaStepsLamp (x + 22) (g + 170) (x + 22) (g + 170 - 12) := by
  refine ⟨?_, ?_, ?_, ?_, ?_⟩
  · unfold ddaStepsLamp
    split_ifs with h
    · constructor
      · intro h0
        exfalso
        rw [h0] at h
        linarith [abs_nonneg (y2 - y1)]
      · rintro ⟨hx, hy⟩
        exfalso
        rw [hx, sub_self, abs_zero] at h
        linarith [abs_nonneg (y2 - y1)]
    · push_neg at h
      constructor
      · intro h0
        have hdx : |x2 - x1| ≤ 0 := h0 ▸ h
        have hx0 : x2 - x1 = 0 :=
          abs_eq_zero.mp (le_antisymm hdx (abs_nonneg _))
        have hy0 : y2 - y1 = 0 := abs_eq_zero.mp h0
        constructor <;> linarith
      · rintro ⟨hx, hy⟩
        rw [hy, sub_self, abs_zero]
  · show [_, _, _] = _
    norm_num [drawDDALampPost_segments, ddaStepsLamp, abs_of_nonneg]
  · norm_num [ddaStepsLamp]
  · norm_num [ddaStepsLamp]
  · norm_num [ddaStepsLamp]

end Cityscape
